import Mathlib

/-!
Verification of the systemd journal source of the Neighbor host-log watcher.

Shallow embedding of `src/neighbor/data/sources/systemd/systemd_source.py`
(together with the event model of `src/neighbor/data/sources/base.py`).

Modelling conventions:
* Timestamps (`datetime` values and `total_seconds()` of `timedelta`s) are
  modelled as rationals `ℚ`, i.e. exact arithmetic on seconds.
* A journal entry (a Python dict) is modelled as a structure holding the
  fields the code reads, plus the full item list for `structured_data`.
* Interactions with the external world (the systemd Reader capability, the
  checkpoint file, the OS) are inputs of the modelled functions: the entries
  a reader yields, whether a seek succeeds, the contents of the cursor file,
  whether a file write succeeds.
* A Python exception that a function may raise is modelled with `Except`;
  a `try/except` that absorbs the exception selects the fallback value.
-/

namespace Neighbor

/-- `Severity` enum of `base.py`. -/
inductive Severity
  | DEBUG
  | INFO
  | WARNING
  | ERROR
  | CRITICAL
deriving DecidableEq, Repr

/-- A scalar-or-not journal field value, as classified by
`isinstance(v, (str, int, float, bool))` in `_entry_to_dict`
(floats are modelled as rationals; `jother` covers non-scalar values). -/
inductive JValue
  | jstr (s : String)
  | jint (n : Int)
  | jfloat (q : ℚ)
  | jbool (b : Bool)
  | jother
deriving DecidableEq, Repr

/-- Whether the value passes the scalar `isinstance` filter of `_entry_to_dict`. -/
def JValue.isScalar : JValue → Bool
  | .jother => false
  | _ => true

/-- A journal entry: the dict fields that `systemd_source.py` reads by name,
plus the full item list (used only for `structured_data`).  A `none` field
models a key absent from the dict (`entry.get(...)` returns `None`). -/
structure JournalEntry where
  message : Option String
  priority : Option Nat
  realtime : Option ℚ
  syslogIdentifier : Option String
  systemdUnit : Option String
  entryCursor : Option String
  items : List (String × JValue)
deriving DecidableEq, Repr

/-- `LogEvent` dataclass of `base.py`. -/
structure LogEvent where
  source : String
  severity : Severity
  timestamp : Option ℚ
  subsystem : String
  raw_message : String
  structured_data : List (String × JValue)
deriving DecidableEq, Repr

/-- `_map_priority_to_severity`: map a systemd priority (0-7) to `Severity`. -/
def _map_priority_to_severity : Option Nat → Severity
  | none => Severity.INFO
  | some p =>
    if p ≤ 3 then Severity.ERROR
    else if p = 4 then Severity.WARNING
    else if p ≤ 6 then Severity.INFO
    else Severity.DEBUG

/-- Python truthiness of an optional string: `None` and `""` are falsy. -/
def pyTruthy : Option String → Bool
  | none => false
  | some s => !(s == "")

/-- Python `a or b` on optional strings: keep `a` when truthy, else `b`. -/
def pyOr (a b : Option String) : Option String :=
  if pyTruthy a then a else b

/-- `_entry_to_dict`: convert a journal entry to a `LogEvent`, or `none` when
the entry has no non-empty `MESSAGE` (the `if not msg: return None` guard). -/
def _entry_to_dict (entry : JournalEntry) : Option LogEvent :=
  match entry.message with
  | none => none
  | some msg =>
    if msg = "" then none
    else
      some
        { source := "systemd"
          severity := _map_priority_to_severity entry.priority
          timestamp := entry.realtime
          subsystem :=
            (pyOr entry.syslogIdentifier
              (pyOr entry.systemdUnit (some "unknown"))).getD "unknown"
          raw_message := msg
          structured_data := entry.items.filter (fun kv => kv.2.isScalar) }

/-- The fresh reader a backfill worker opens: whether `seek_realtime` on it
succeeds, and the entries forward iteration then yields. -/
structure ChunkReader where
  seekOk : Bool
  entries : List JournalEntry
deriving DecidableEq, Repr

/-- The `for entry in j` loop of `process_log_chunk`: translate entries in
order, stopping at the first entry whose timestamp exceeds `end_time`. -/
def chunkScanLoop (endTime : ℚ) : List JournalEntry → List LogEvent
  | [] => []
  | e :: rest =>
    match e.realtime with
    | some t =>
      if endTime < t then []
      else
        match _entry_to_dict e with
        | some ev => ev :: chunkScanLoop endTime rest
        | none => chunkScanLoop endTime rest
    | none =>
      match _entry_to_dict e with
      | some ev => ev :: chunkScanLoop endTime rest
      | none => chunkScanLoop endTime rest

/-- `process_log_chunk`: worker task for one time chunk.  A failed
`seek_realtime` returns the (empty) event list instead of raising.
(The `os.nice(10)` call touches only OS scheduling state and is not
modelled.) -/
def process_log_chunk (j : ChunkReader) (startTime endTime : ℚ) : List LogEvent :=
  let _ := startTime
  if j.seekOk then chunkScanLoop endTime j.entries else []

/-- One iteration of the chunk-building loop of `_create_time_chunks`:
append `(current, next_time)` where the last chunk ends at `end_time + 1`. -/
def chunkStep (cpuCount : Nat) (endTime chunkSize : ℚ)
    (acc : List (ℚ × ℚ) × ℚ) (i : Nat) : List (ℚ × ℚ) × ℚ :=
  let current := acc.2
  let nextTime := if i = cpuCount - 1 then endTime + 1 else current + chunkSize
  (acc.1 ++ [(current, nextTime)], nextTime)

/-- `_create_time_chunks`: split a time range into chunks for parallel
processing (`self.cpu_count` many; one chunk when the range is ≤ 5 s). -/
def _create_time_chunks (cpuCount : Nat) (startTime endTime : ℚ) : List (ℚ × ℚ) :=
  let totalDuration := endTime - startTime
  if totalDuration ≤ 5 then [(startTime, endTime)]
  else
    let chunkSize := totalDuration / (cpuCount : ℚ)
    ((List.range cpuCount).foldl (chunkStep cpuCount endTime chunkSize)
      ([], startTime)).1

/-- The mutable state of a `SystemdSource` instance.  `journal` is the live
reader handle: `none` when closed, `some entries` when open with `entries`
the entries its forward iteration currently yields (already-appended journal
content; the Reader capability never blocks for future writes). -/
structure SystemdSource where
  cpuCount : Nat
  journal : Option (List JournalEntry)
  cursor : Option String
  historyQueue : List LogEvent
  historyDone : Bool
deriving DecidableEq, Repr

/-- `HISTORY_BATCH_SIZE` of `poll`. -/
def HISTORY_BATCH_SIZE : Nat := 100

/-- The drain loop of `poll`: `while not empty and count < batch` pop the
queue front.  Returns the drained events and the remaining queue. -/
def drainHistory : Nat → List LogEvent → List LogEvent × List LogEvent
  | _, [] => ([], [])
  | 0, q => ([], q)
  | Nat.succ n, e :: rest =>
    let res := drainHistory n rest
    (e :: res.1, res.2)

/-- The live-tail loop of `poll`: translate each available entry; on a
successful translation append the event and assign the entry's `__CURSOR`
to the stored cursor.  Returns the events and the final cursor. -/
def liveTailLoop (cursor : Option String) :
    List JournalEntry → List LogEvent × Option String
  | [] => ([], cursor)
  | e :: rest =>
    match _entry_to_dict e with
    | some ev =>
      let res := liveTailLoop e.entryCursor rest
      (ev :: res.1, res.2)
    | none => liveTailLoop cursor rest

/-- `SystemdSource.poll`: drain up to `HISTORY_BATCH_SIZE` backfill events,
then (when the live reader is open) append all currently available live
events, advancing the cursor.  Returns the events and the updated state;
consumed live entries are no longer available to the next poll. -/
def poll (st : SystemdSource) : List LogEvent × SystemdSource :=
  let drained := drainHistory HISTORY_BATCH_SIZE st.historyQueue
  match st.journal with
  | none => (drained.1, { st with historyQueue := drained.2 })
  | some entries =>
    let live := liveTailLoop st.cursor entries
    (drained.1 ++ live.1,
      { st with
          historyQueue := drained.2
          cursor := live.2
          journal := some [] })

/-- Outcome of opening and reading the checkpoint file: the path does not
exist, the read succeeds with the raw text, or `open`/`read` raises. -/
inductive FileReadResult
  | absent
  | readOk (contents : String)
  | readError
deriving DecidableEq, Repr

/-- `SystemdSource._load_cursor`: return the stripped file contents when the
path exists, `none` when it does not.  There is no exception handler, so a
read failure propagates to the caller (`Except.error`). -/
def _load_cursor : FileReadResult → Except Unit (Option String)
  | .absent => Except.ok none
  | .readOk s => Except.ok (some s.trim)
  | .readError => Except.error ()

/-- External outcomes consumed by `_initialize_journal_position`: whether
`seek_cursor` succeeds, whether `get_previous` after `seek_tail` raises, and
the tail entry it returns otherwise (`none` = no entry). -/
structure LiveInit where
  seekCursorOk : Bool
  getPrevFails : Bool
  tailLast : Option JournalEntry
deriving DecidableEq, Repr

/-- `SystemdSource._initialize_journal_position`: keep the loaded cursor when
it is truthy and `seek_cursor` succeeds; otherwise seek to the tail and, when
`get_previous` yields an entry, record that entry's `__CURSOR`. -/
def _initialize_journal_position (cursor : Option String) (init : LiveInit) :
    Option String :=
  if pyTruthy cursor && init.seekCursorOk then cursor
  else if init.getPrevFails then cursor
  else
    match init.tailLast with
    | some last => last.entryCursor
    | none => cursor

/-- External inputs of one `start()` call: the checkpoint-file read outcome,
the scan range discovered by `_get_scan_range` on the fresh reader, and the
seek outcomes of `_initialize_journal_position`. -/
structure StartEnv where
  fileRead : FileReadResult
  scanStart : Option ℚ
  scanEnd : Option ℚ
  liveInit : LiveInit
deriving DecidableEq, Repr

/-- The guard `if scan_start and scan_end and scan_start < scan_end` of
`start` (and, negated, of `_scan_history_background`); `datetime` values are
always truthy, so only `None` fails the first two tests. -/
def launchGuard : Option ℚ → Option ℚ → Bool
  | some s, some e => decide (s < e)
  | _, _ => false

/-- `SystemdSource.start`: load the cursor (a read failure propagates), open
the live reader, position it, and launch the background scanner only when
the scan range is valid, else set `history_done` immediately.  Returns the
new state and whether the backfill worker pool was launched. -/
def start (st : SystemdSource) (env : StartEnv) :
    Except Unit (SystemdSource × Bool) :=
  match _load_cursor env.fileRead with
  | Except.error e => Except.error e
  | Except.ok loaded =>
    let cursor2 := _initialize_journal_position loaded env.liveInit
    let launch := launchGuard env.scanStart env.scanEnd
    Except.ok
      ({ st with
          cursor := cursor2
          journal := some []
          historyDone := if launch then st.historyDone else true },
        launch)

/-- The `open(..., 'w'); f.write(cursor)` step of `stop`: on success the file
holds exactly the cursor text, on failure the write raises. -/
def writeCursorFile (file : Option String) (writeOk : Bool) (c : String) :
    Except Unit (Option String) :=
  let _ := file
  if writeOk then Except.ok (some c) else Except.error ()

/-- `SystemdSource.stop`: when the cursor is truthy, write it to the
checkpoint file, absorbing a write failure (logged, file left as it was);
then close the live reader handle.  Returns the new state and the resulting
checkpoint-file contents. -/
def stop (st : SystemdSource) (file : Option String) (writeOk : Bool) :
    SystemdSource × Option String :=
  let file2 :=
    match st.cursor with
    | some c =>
      if c = "" then file
      else
        match writeCursorFile file writeOk c with
        | Except.ok f => f
        | Except.error _ => file
    | none => file
  ({ st with journal := none }, file2)

/-! ## Helper lemmas -/

/-- The drain loop removes exactly the first `n` queued events. -/
lemma drainHistory_eq (n : Nat) (q : List LogEvent) :
    drainHistory n q = (q.take n, q.drop n) := by
  induction q generalizing n with
  | nil => cases n <;> rfl
  | cons e rest ih =>
    cases n with
    | zero => rfl
    | succ m => simp [drainHistory, ih]

/-- The live-tail loop emits exactly the successful translations, in order. -/
lemma liveTailLoop_fst (cursor : Option String) (entries : List JournalEntry) :
    (liveTailLoop cursor entries).1 = entries.filterMap _entry_to_dict := by
  induction entries generalizing cursor with
  | nil => rfl
  | cons e rest ih =>
    cases h : _entry_to_dict e with
    | none => simp [liveTailLoop, h, List.filterMap_cons, ih]
    | some ev => simp [liveTailLoop, h, List.filterMap_cons, ih]

/-- `Option.elim` over `getLast?` of a cons: the head becomes the new
default. -/
lemma getLast?_elim_cons {α β : Type _} (a : α) (l : List α) (b : β)
    (f : α → β) :
    ((a :: l).getLast?.elim b f) = (l.getLast?.elim (f a) f) := by
  cases l with
  | nil => rfl
  | cons x xs =>
    rw [List.getLast?_cons_cons]
    obtain ⟨y, hy⟩ :=
      Option.isSome_iff_exists.mp
        (List.getLast?_isSome.mpr (List.cons_ne_nil x xs))
    rw [hy]
    rfl

/-- The live-tail loop's final cursor is the `__CURSOR` of the last entry
whose translation succeeded, or the initial cursor when none did. -/
lemma liveTailLoop_snd (cursor : Option String) (entries : List JournalEntry) :
    (liveTailLoop cursor entries).2 =
      ((entries.filter (fun e => (_entry_to_dict e).isSome)).getLast?.elim
        cursor (fun e => e.entryCursor)) := by
  induction entries generalizing cursor with
  | nil => rfl
  | cons e rest ih =>
    cases h : _entry_to_dict e with
    | none =>
      have hp : ((_entry_to_dict e).isSome) = false := by rw [h]; rfl
      simp [liveTailLoop, h, List.filter_cons, hp, ih]
    | some ev =>
      have hp : ((_entry_to_dict e).isSome) = true := by rw [h]; rfl
      simp [liveTailLoop, h, List.filter_cons, hp, ih, getLast?_elim_cons]

/-- A poll with an empty backfill queue and an open reader returns exactly
the translations of the available live entries. -/
lemma poll_empty_queue (st : SystemdSource) (entries : List JournalEntry)
    (hq : st.historyQueue = []) (hj : st.journal = some entries) :
    (poll st).1 = entries.filterMap _entry_to_dict := by
  unfold poll
  rw [hj, hq]
  simp [drainHistory_eq, liveTailLoop_fst]

/-! ## Example values used by witnesses and counterexamples -/

/-- An entry with a non-empty message (translates to an event). -/
def entMsg (m c : String) : JournalEntry :=
  { message := some m
    priority := some 6
    realtime := some 2
    syslogIdentifier := some "kernel"
    systemdUnit := none
    entryCursor := some c
    items := [] }

/-- An entry with no `MESSAGE` field (translation yields nothing). -/
def entNoMsg (c : String) : JournalEntry :=
  { message := none
    priority := some 6
    realtime := some 3
    syslogIdentifier := some "kernel"
    systemdUnit := none
    entryCursor := some c
    items := [] }

/-- A historical event as buffered in the backfill queue. -/
def evHist : LogEvent :=
  { source := "systemd"
    severity := Severity.INFO
    timestamp := some 1
    subsystem := "unknown"
    raw_message := "hist"
    structured_data := [] }

/-! ## Claims -/

/-- C2: for every backfill-queue and live-reader state, `poll()` returns the
concatenation of at most 100 events drained from the backfill queue followed
by all currently available live events; with an empty queue and no live
entries it returns the empty sequence (and, being a total function, does not
raise). -/
theorem C2_poll_concatenation (st : SystemdSource) (entries : List JournalEntry)
    (h : st.journal = some entries) :
    (poll st).1 =
        st.historyQueue.take HISTORY_BATCH_SIZE ++
          entries.filterMap _entry_to_dict
    ∧ (st.historyQueue.take HISTORY_BATCH_SIZE).length ≤ 100
    ∧ (st.historyQueue = [] → entries = [] → (poll st).1 = []) := by
  have hmain : (poll st).1 =
      st.historyQueue.take HISTORY_BATCH_SIZE ++
        entries.filterMap _entry_to_dict := by
    unfold poll
    rw [h]
    simp [drainHistory_eq, liveTailLoop_fst]
  refine ⟨hmain, ?_, ?_⟩
  · exact List.length_take_le 100 st.historyQueue
  · intro h1 h2
    rw [hmain, h1, h2]
    rfl

/-- Concrete source state for the C2 witness. -/
def stC2 : SystemdSource :=
  { cpuCount := 1
    journal := some [entMsg "boot ok" "lc1"]
    cursor := none
    historyQueue := [evHist]
    historyDone := false }

/-- Witness for C2 at a state with one queued event and one live entry. -/
theorem C2_witness :
    (poll stC2).1 =
        stC2.historyQueue.take HISTORY_BATCH_SIZE ++
          [entMsg "boot ok" "lc1"].filterMap _entry_to_dict
    ∧ (poll stC2).1.length = 2 := by
  have h := C2_poll_concatenation stC2 [entMsg "boot ok" "lc1"] rfl
  refine ⟨h.1, ?_⟩
  rw [h.1]
  decide

/-- C4: the priority-to-severity mapping is total and deterministic on
priority codes: 0–3 map to ERROR, 4 to WARNING, 5–6 to INFO, 7 to DEBUG, and
an absent priority maps to INFO. -/
theorem C4_severity_mapping (p : Nat) :
    _map_priority_to_severity none = Severity.INFO
    ∧ (p ≤ 3 → _map_priority_to_severity (some p) = Severity.ERROR)
    ∧ (p = 4 → _map_priority_to_severity (some p) = Severity.WARNING)
    ∧ (5 ≤ p → p ≤ 6 → _map_priority_to_severity (some p) = Severity.INFO)
    ∧ (p = 7 → _map_priority_to_severity (some p) = Severity.DEBUG) := by
  refine ⟨rfl, ?_, ?_, ?_, ?_⟩
  · intro h
    simp [_map_priority_to_severity, h]
  · intro h
    subst h
    rfl
  · intro h5 h6
    have h3 : ¬ p ≤ 3 := by omega
    have h4 : p ≠ 4 := by omega
    simp [_map_priority_to_severity, h3, h4, h6]
  · intro h
    subst h
    rfl

/-- Witness for C4 at priorities 2, 4, 6, 7 and absent. -/
theorem C4_witness :
    _map_priority_to_severity (some 2) = Severity.ERROR
    ∧ _map_priority_to_severity (some 4) = Severity.WARNING
    ∧ _map_priority_to_severity (some 6) = Severity.INFO
    ∧ _map_priority_to_severity (some 7) = Severity.DEBUG
    ∧ _map_priority_to_severity none = Severity.INFO :=
  ⟨(C4_severity_mapping 2).2.1 (by decide),
    (C4_severity_mapping 4).2.2.1 rfl,
    (C4_severity_mapping 6).2.2.2.1 (by decide) (by decide),
    (C4_severity_mapping 7).2.2.2.2 rfl,
    (C4_severity_mapping 0).1⟩

/-- C7: a chunk task whose seek to the chunk's start fails returns an empty
result instead of propagating the error (the function is total, so no seek
failure aborts the backfill run). -/
theorem C7_seek_failure_empty (j : ChunkReader) (startTime endTime : ℚ)
    (h : j.seekOk = false) :
    process_log_chunk j startTime endTime = [] := by
  simp [process_log_chunk, h]

/-- Witness for C7: a failed seek over a reader that does hold entries. -/
theorem C7_witness :
    process_log_chunk { seekOk := false, entries := [entMsg "m" "c"] } 0 10
      = [] :=
  C7_seek_failure_empty { seekOk := false, entries := [entMsg "m" "c"] } 0 10
    rfl

/-- C8: `stop()` persists the cursor best-effort — a truthy cursor is written
to the checkpoint file when the write succeeds, a write failure leaves the
file as it was (logged, not raised — `stop` is total) — and in all cases the
live reader handle is released. -/
theorem C8_stop_best_effort (st : SystemdSource) (file : Option String)
    (writeOk : Bool) :
    (stop st file writeOk).1.journal = none
    ∧ (∀ c, st.cursor = some c → c ≠ "" → writeOk = true →
        (stop st file writeOk).2 = some c)
    ∧ (writeOk = false → (stop st file writeOk).2 = file) := by
  refine ⟨rfl, ?_, ?_⟩
  · intro c hc hne hw
    simp [stop, hc, hne, writeCursorFile, hw]
  · intro hw
    cases hc : st.cursor with
    | none => simp [stop, hc]
    | some c =>
      by_cases hne : c = ""
      · simp [stop, hc, hne]
      · simp [stop, hc, hne, writeCursorFile, hw]

/-- Concrete source state for the C8 witness. -/
def stC8 : SystemdSource :=
  { cpuCount := 1
    journal := some []
    cursor := some "cw"
    historyQueue := []
    historyDone := true }

/-- Witness for C8: a successful stop writes the cursor and closes the
reader. -/
theorem C8_witness :
    (stop stC8 none true).2 = some "cw"
    ∧ (stop stC8 none true).1.journal = none := by
  have h := C8_stop_best_effort stC8 none true
  exact ⟨h.2.1 "cw" rfl (by decide) rfl, h.1⟩

/-- C9: `poll()` with no open live reader handle returns only the events
drained from the backfill queue (possibly none) and, being total, does not
raise. -/
theorem C9_poll_no_reader (st : SystemdSource) (h : st.journal = none) :
    (poll st).1 = st.historyQueue.take HISTORY_BATCH_SIZE := by
  unfold poll
  rw [h]
  simp [drainHistory_eq]

/-- Concrete source state for the C9 witness. -/
def stC9 : SystemdSource :=
  { cpuCount := 1
    journal := none
    cursor := some "c"
    historyQueue := [evHist]
    historyDone := true }

/-- Witness for C9: polling a stopped source drains just the queue. -/
theorem C9_witness : (poll stC9).1 = [evHist] := by
  have h := C9_poll_no_reader stC9 rfl
  rw [h]
  rfl

/-- C10: `stop()` with no cursor established leaves the checkpoint file
unchanged — it neither creates nor overwrites it. -/
theorem C10_stop_no_cursor (st : SystemdSource) (file : Option String)
    (writeOk : Bool) (h : st.cursor = none) :
    (stop st file writeOk).2 = file := by
  simp [stop, h]

/-- Concrete source state for the C10 witness. -/
def stC10 : SystemdSource :=
  { cpuCount := 1
    journal := some []
    cursor := none
    historyQueue := []
    historyDone := true }

/-- Witness for C10: stopping with no cursor keeps the old file contents. -/
theorem C10_witness : (stop stC10 (some "old") true).2 = some "old" :=
  C10_stop_no_cursor stC10 (some "old") true rfl

/-- Concrete source state for C1: the last available live entry ("lc2") has
no `MESSAGE`, so its translation yields nothing. -/
def stC1 : SystemdSource :=
  { cpuCount := 1
    journal := some [entMsg "hello" "lc1", entNoMsg "lc2"]
    cursor := some "c0"
    historyQueue := []
    historyDone := true }

/-- C1 (counterexample): after a poll the stored cursor is that of the last
entry whose translation succeeded ("lc1"), not that of the last entry
consumed from the reader ("lc2") — the cursor assignment sits inside the
`if ev_dict:` branch, so it does not advance past untranslatable entries. -/
theorem C1_counterexample :
    (poll stC1).2.cursor = some "lc1"
    ∧ [entMsg "hello" "lc1", entNoMsg "lc2"].getLast?.bind
        JournalEntry.entryCursor = some "lc2"
    ∧ (poll stC1).2.cursor ≠
        [entMsg "hello" "lc1", entNoMsg "lc2"].getLast?.bind
          JournalEntry.entryCursor := by
  refine ⟨?_, rfl, ?_⟩ <;> decide

/-- C1 (amended): after a live-tail poll the stored cursor equals the cursor
token of the last entry whose translation produced an event; entries whose
translation yields nothing do not advance it, and when no entry translates
the cursor is unchanged. -/
theorem C1_cursor_last_translated (st : SystemdSource)
    (entries : List JournalEntry) (h : st.journal = some entries) :
    (poll st).2.cursor =
      ((entries.filter (fun e => (_entry_to_dict e).isSome)).getLast?.elim
        st.cursor (fun e => e.entryCursor)) := by
  unfold poll
  rw [h]
  simp [liveTailLoop_snd]

/-- Witness for C1 at the concrete state: cursor ends at "lc1". -/
theorem C1_witness : (poll stC1).2.cursor = some "lc1" := by
  have h := C1_cursor_last_translated stC1
    [entMsg "hello" "lc1", entNoMsg "lc2"] rfl
  rw [h]
  decide

/-- C5: when the discovered scan range has an undefined endpoint or is empty
(start not before end), `start()` completes without error, launches no
backfill worker pool, marks the backfill sub-state done immediately, and
subsequent polls return only live events. -/
theorem C5_invalid_range_no_backfill (st : SystemdSource) (env : StartEnv)
    (hread : env.fileRead ≠ FileReadResult.readError)
    (hq : st.historyQueue = [])
    (hrange : env.scanStart = none ∨ env.scanEnd = none ∨
      ∃ s e, env.scanStart = some s ∧ env.scanEnd = some e ∧ e ≤ s) :
    ∃ st2, start st env = Except.ok (st2, false)
      ∧ st2.historyDone = true
      ∧ (∀ entries, (poll { st2 with journal := some entries }).1 =
          entries.filterMap _entry_to_dict) := by
  have hguard : launchGuard env.scanStart env.scanEnd = false := by
    rcases hrange with h | h | ⟨s, e, hs, he, hle⟩
    · rw [h]
      cases env.scanEnd <;> rfl
    · rw [h]
      cases env.scanStart <;> rfl
    · rw [hs, he]
      simp [launchGuard]
      exact hle
  obtain ⟨loaded, hl⟩ : ∃ l, _load_cursor env.fileRead = Except.ok l := by
    cases hf : env.fileRead with
    | absent => exact ⟨none, rfl⟩
    | readOk s => exact ⟨some s.trim, rfl⟩
    | readError => exact absurd hf hread
  refine ⟨{ st with
      cursor := _initialize_journal_position loaded env.liveInit
      journal := some []
      historyDone := true }, ?_, rfl, ?_⟩
  · simp [start, hl, hguard]
  · intro entries
    exact poll_empty_queue _ entries hq rfl

/-- Concrete source state for C5 and C6: a freshly constructed source. -/
def stFresh : SystemdSource :=
  { cpuCount := 2
    journal := none
    cursor := none
    historyQueue := []
    historyDone := false }

/-- Start environment with no checkpoint file and an undefined scan start
(empty journal). -/
def envAbsent : StartEnv :=
  { fileRead := FileReadResult.absent
    scanStart := none
    scanEnd := none
    liveInit := { seekCursorOk := true, getPrevFails := false, tailLast := none } }

/-- Witness for C5: an empty journal leads to an immediately-done backfill. -/
theorem C5_witness :
    ∃ st2, start stFresh envAbsent = Except.ok (st2, false)
      ∧ st2.historyDone = true
      ∧ (∀ entries, (poll { st2 with journal := some entries }).1 =
          entries.filterMap _entry_to_dict) :=
  C5_invalid_range_no_backfill stFresh envAbsent
    (by decide) rfl (Or.inl rfl)

/-- Start environment whose checkpoint-file read raises. -/
def envReadErr : StartEnv :=
  { fileRead := FileReadResult.readError
    scanStart := none
    scanEnd := none
    liveInit := { seekCursorOk := true, getPrevFails := false, tailLast := none } }

/-- C6 (counterexample): a failure to read an existing checkpoint file is not
absorbed — `_load_cursor` has no exception handler, so the failure escapes
`start()` to the caller. -/
theorem C6_counterexample :
    start stFresh envReadErr = Except.error () := rfl

/-- C6 (amended): a missing checkpoint file is absorbed — `start()` completes
normally with no cursor loaded — but a read failure on an existing
checkpoint file is not caught and escapes `start()` to the caller. -/
theorem C6_checkpoint_read (st : SystemdSource) (env : StartEnv) :
    (env.fileRead = FileReadResult.absent →
      ∃ st2 launched, start st env = Except.ok (st2, launched))
    ∧ (env.fileRead = FileReadResult.readError →
      start st env = Except.error ()) := by
  constructor
  · intro h
    have hl : _load_cursor env.fileRead = Except.ok none := by
      rw [h]
      rfl
    refine ⟨{ st with
        cursor := _initialize_journal_position none env.liveInit
        journal := some []
        historyDone :=
          if launchGuard env.scanStart env.scanEnd then st.historyDone
          else true },
      launchGuard env.scanStart env.scanEnd, ?_⟩
    simp [start, hl]
  · intro h
    unfold start
    rw [h]
    rfl

/-- Witness for C6: the absent-file case completes, the read-error case
raises. -/
theorem C6_witness :
    (∃ st2 launched, start stFresh envAbsent = Except.ok (st2, launched))
    ∧ start stFresh envReadErr = Except.error () :=
  ⟨(C6_checkpoint_read stFresh envAbsent).1 rfl,
    (C6_checkpoint_read stFresh envReadErr).2 rfl⟩

/-- Closed form of the position reached after `k` iterations of the
chunk-building loop: `start + k·chunkSize`, except that completing the final
iteration lands on `end + 1`. -/
def chunkPos (cpuCount : Nat) (startTime endTime chunkSize : ℚ) (k : Nat) : ℚ :=
  if k = cpuCount then endTime + 1 else startTime + k * chunkSize

/-- Closed form of the chunk-building fold: after `k ≤ N` iterations the
accumulated chunks are `(chunkPos i, chunkPos (i+1))` for `i < k` and the
running position is `chunkPos k`. -/
lemma chunkFold_closed (N : Nat) (s e σ : ℚ) (hN : 1 ≤ N) (k : Nat)
    (hk : k ≤ N) :
    (List.range k).foldl (chunkStep N e σ) ([], s) =
      ((List.range k).map
        (fun i => (chunkPos N s e σ i, chunkPos N s e σ (i + 1))),
        chunkPos N s e σ k) := by
  induction k with
  | zero =>
    have h0 : (0 : Nat) ≠ N := by omega
    simp [chunkPos, h0]
  | succ k ih =>
    rw [List.range_succ, List.foldl_append, ih (by omega), List.map_append]
    simp only [List.foldl_cons, List.foldl_nil, List.map_cons, List.map_nil]
    have hnext : (if k = N - 1 then e + 1 else chunkPos N s e σ k + σ) =
        chunkPos N s e σ (k + 1) := by
      by_cases hk1 : k = N - 1
      · have hkN : k + 1 = N := by omega
        rw [if_pos hk1]
        unfold chunkPos
        rw [if_pos hkN]
      · have hkN : k + 1 ≠ N := by omega
        have hkN2 : k ≠ N := by omega
        rw [if_neg hk1]
        unfold chunkPos
        rw [if_neg hkN, if_neg hkN2]
        push_cast
        ring
    unfold chunkStep
    simp only []
    rw [hnext]

/-- On a range longer than 5 seconds, `_create_time_chunks` produces the
chunk `(chunkPos i, chunkPos (i+1))` for every `i < cpu_count`. -/
lemma create_time_chunks_closed (N : Nat) (s e : ℚ) (hN : 1 ≤ N)
    (hdur : 5 < e - s) :
    _create_time_chunks N s e =
      (List.range N).map (fun i =>
        (chunkPos N s e ((e - s) / (N : ℚ)) i,
          chunkPos N s e ((e - s) / (N : ℚ)) (i + 1))) := by
  unfold _create_time_chunks
  rw [if_neg (not_le.mpr hdur)]
  show ((List.range N).foldl (chunkStep N e ((e - s) / (N : ℚ)))
    ([], s)).1 = _
  rw [chunkFold_closed N s e ((e - s) / (N : ℚ)) hN N le_rfl]

/-- Any value between `f 0` (inclusive) and `f N` (exclusive) falls in one of
the half-open steps `[f i, f (i+1))` with `i < N`. -/
lemma exists_chunk_index (f : Nat → ℚ) (t : ℚ) (N : Nat) (h1 : f 0 ≤ t)
    (h2 : t < f N) : ∃ i, i < N ∧ f i ≤ t ∧ t < f (i + 1) := by
  induction N with
  | zero => exact absurd h2 (not_lt.mpr h1)
  | succ n ih =>
    by_cases hn : t < f n
    · obtain ⟨i, hi, ha, hb⟩ := ih hn
      exact ⟨i, Nat.lt_succ_of_lt hi, ha, hb⟩
    · exact ⟨n, Nat.lt_succ_self n, not_lt.mp hn, h2⟩

/-- C3: for timestamps `s < e` and parallelism `N ≥ 1`, the chunk planner
returns exactly one chunk equal to the input range when `e − s ≤ 5`;
otherwise it returns exactly `N` contiguous chunks, the first starting at
`s`, the last ending at `e + 1` (strictly past `e`), together covering
`[s, e]`. -/
theorem C3_chunk_planner (N : Nat) (s e : ℚ) (hN : 1 ≤ N) (_hse : s < e) :
    (e - s ≤ 5 → _create_time_chunks N s e = [(s, e)])
    ∧ (5 < e - s →
        (_create_time_chunks N s e).length = N
        ∧ (∃ c, (_create_time_chunks N s e)[0]? = some c ∧ c.1 = s)
        ∧ (∃ c, (_create_time_chunks N s e)[N - 1]? = some c ∧ c.2 = e + 1
            ∧ e < c.2)
        ∧ (∀ i c c', (_create_time_chunks N s e)[i]? = some c →
            (_create_time_chunks N s e)[i + 1]? = some c' → c.2 = c'.1)
        ∧ (∀ t, s ≤ t → t ≤ e → ∃ c, c ∈ _create_time_chunks N s e ∧
            c.1 ≤ t ∧ t < c.2)) := by
  constructor
  · intro h
    simp [_create_time_chunks, h]
  · intro hdur
    have hcl := create_time_chunks_closed N s e hN hdur
    set σ := (e - s) / (N : ℚ) with hσ
    refine ⟨?_, ?_, ?_, ?_, ?_⟩
    · rw [hcl]
      simp
    · refine ⟨(chunkPos N s e σ 0, chunkPos N s e σ 1), ?_, ?_⟩
      · rw [hcl, List.getElem?_map, List.getElem?_range (by omega : 0 < N)]
        rfl
      · show chunkPos N s e σ 0 = s
        unfold chunkPos
        rw [if_neg (by omega : (0 : Nat) ≠ N)]
        simp
    · have hend : chunkPos N s e σ (N - 1 + 1) = e + 1 := by
        have hplus : N - 1 + 1 = N := by omega
        rw [hplus]
        unfold chunkPos
        rw [if_pos rfl]
      refine ⟨(chunkPos N s e σ (N - 1), chunkPos N s e σ (N - 1 + 1)),
        ?_, hend, ?_⟩
      · rw [hcl, List.getElem?_map,
          List.getElem?_range (by omega : N - 1 < N)]
        rfl
      · show e < chunkPos N s e σ (N - 1 + 1)
        rw [hend]
        linarith
    · intro i c c' h1 h2
      rw [hcl, List.getElem?_map] at h1 h2
      have hi1 : i + 1 < N := by
        by_contra hge
        rw [List.getElem?_eq_none (by simp; omega)] at h2
        simp at h2
      have hi : i < N := by omega
      rw [List.getElem?_range hi] at h1
      rw [List.getElem?_range hi1] at h2
      have hc : c = (chunkPos N s e σ i, chunkPos N s e σ (i + 1)) := by
        simpa using h1.symm
      have hc' : c' = (chunkPos N s e σ (i + 1), chunkPos N s e σ (i + 2)) := by
        simpa using h2.symm
      rw [hc, hc']
    · intro t ht1 ht2
      have h0 : chunkPos N s e σ 0 ≤ t := by
        unfold chunkPos
        rw [if_neg (by omega : (0 : Nat) ≠ N)]
        simpa using ht1
      have hNt : t < chunkPos N s e σ N := by
        unfold chunkPos
        rw [if_pos rfl]
        linarith
      obtain ⟨i, hiN, ha, hb⟩ := exists_chunk_index (chunkPos N s e σ) t N h0 hNt
      refine ⟨(chunkPos N s e σ i, chunkPos N s e σ (i + 1)), ?_, ha, hb⟩
      rw [hcl]
      exact List.mem_map_of_mem _ (List.mem_range.mpr hiN)

/-- Witness for C3 at `N = 2`, range `[0, 10]`: two contiguous chunks
`(0, 5), (5, 11)` covering the range. -/
theorem C3_witness :
    _create_time_chunks 2 (0 : ℚ) 10 = [(0, 5), (5, 11)]
    ∧ (_create_time_chunks 2 (0 : ℚ) 10).length = 2
    ∧ (∀ t : ℚ, 0 ≤ t → t ≤ 10 →
        ∃ c, c ∈ _create_time_chunks 2 (0 : ℚ) 10 ∧ c.1 ≤ t ∧ t < c.2) := by
  have h := C3_chunk_planner 2 0 10 (by norm_num) (by norm_num)
  have h2 := h.2 (by norm_num)
  exact ⟨by norm_num [_create_time_chunks, chunkStep, List.range_succ],
    h2.1, h2.2.2.2.2⟩

end Neighbor
